import Mathlib

/-!
Verification of the NanoClaw core against its specification.

The development shallowly embeds the parts of the system the claims talk
about: the message store (`storeMessage` / `getMessagesSince`), the
per-group work queue (`GQ` with its operations and a small-step event
semantics), and the scheduled-task runner (`runTaskModel`).  Timestamps
and JIDs are strings, compared lexicographically exactly as the SQL layer
compares its TEXT columns.
-/

namespace NanoClaw

/-- Modelled from the spec: the `Message` row of the store
(`src/db.ts` is not part of the sources; only `db.test.ts` is).
Fields follow §3 of the spec: `{id, chat_jid, sender, sender_name,
content, timestamp, is_from_me, is_bot_message}`. -/
structure Message where
  id : String
  chat_jid : String
  sender : String
  sender_name : String
  content : String
  timestamp : String
  is_from_me : Bool
  is_bot_message : Bool
deriving DecidableEq, Repr

/-- Two message rows collide on the store's unique key `(chat_jid, id)`. -/
def sameKey (a b : Message) : Bool :=
  a.chat_jid == b.chat_jid && a.id == b.id

/-- Modelled from the spec: `storeMessage(m)` — upsert by `(chat_jid, id)`
with REPLACE semantics (the conflicting row is deleted and the new row
inserted); `src/db.ts` is not part of the sources. -/
def storeMessage (m : Message) (store : List Message) : List Message :=
  store.filter (fun x => !(sameKey x m)) ++ [m]

/-- The row filter of `getMessagesSince`: same chat, strictly newer than
the cursor, not bot-authored, not carrying the `"<assistant_name>:"`
content prefix backstop, and non-empty content. -/
def keepMessage (jid sinceTs assistantName : String) (m : Message) : Bool :=
  m.chat_jid == jid && decide (sinceTs < m.timestamp) && !m.is_bot_message
    && !((assistantName ++ ":").isPrefixOf m.content) && m.content != ""

/-- Ordering of message rows by their timestamp column (ascending). -/
def msgLe (a b : Message) : Prop :=
  a.timestamp ≤ b.timestamp

instance : DecidableRel msgLe :=
  fun a b => inferInstanceAs (Decidable (a.timestamp ≤ b.timestamp))

instance : IsTotal Message msgLe :=
  ⟨fun a b => le_total a.timestamp b.timestamp⟩

instance : IsTrans Message msgLe :=
  ⟨fun _ _ _ h₁ h₂ => le_trans h₁ h₂⟩

/-- Modelled from the spec: `getMessagesSince(jid, since_ts,
assistant_name)` — rows of the chat with `timestamp > since_ts`,
excluding `is_bot_message=1` rows, rows whose content begins with
`"<assistant_name>:"`, and empty-content rows, ordered by timestamp
ascending; `src/db.ts` is not part of the sources. -/
def getMessagesSince (store : List Message) (jid sinceTs assistantName : String) :
    List Message :=
  List.insertionSort msgLe (store.filter (keepMessage jid sinceTs assistantName))

/-- Configuration constant `MAX_CONCURRENT_CONTAINERS` (default 2 in the
test configuration). -/
def MAX_CONCURRENT : Nat := 2

/-- Configuration constant `BASE_RETRY_MS` (5000). -/
def BASE_RETRY_MS : Nat := 5000

/-- Configuration constant `MAX_RETRIES` (5). -/
def MAX_RETRIES : Nat := 5

/-- The kind of job an active container is running: a message-processing
job or a scheduled task. -/
inductive RunKind where
  | messages : RunKind
  | task (taskId : String) : RunKind
deriving DecidableEq, Repr

/-- One in-flight container run: its JID, job kind and whether the
container has reported IDLE and is waiting. -/
structure Run where
  jid : String
  kind : RunKind
  idleWaiting : Bool
deriving DecidableEq, Repr

/-- Per-JID bookkeeping of the queue: pending message flag, pending-task
FIFO, retry counter and whether a retry timer is armed. -/
structure PendState where
  pendingMessages : Bool
  pendingTasks : List String
  retryCount : Nat
  retryScheduled : Bool
deriving DecidableEq, Repr

/-- Initial per-JID bookkeeping. -/
def PendState.initial : PendState := ⟨false, [], 0, false⟩

/-- Modelled from the spec: the state of `GroupQueue`
(`src/group-queue.ts` is not part of the sources; only
`group-queue.test.ts` is).  `running` is the list of in-flight container
runs (`activeCount` is its length), `waiting` the FIFO of JIDs waiting
for a global slot, `pend` the per-JID bookkeeping, and
`shutdownRequested` the drain flag. -/
structure GQ where
  running : List Run
  waiting : List String
  pend : String → PendState
  shutdownRequested : Bool

/-- The initial, empty queue. -/
def GQ.initial : GQ := ⟨[], [], fun _ => PendState.initial, false⟩

/-- Replace the per-JID bookkeeping of one JID. -/
def setPend (st : GQ) (j : String) (p : PendState) : GQ :=
  { st with pend := fun x => if x = j then p else st.pend x }

/-- The in-flight run of a JID, when there is one. -/
def findRun (st : GQ) (j : String) : Option Run :=
  st.running.find? (fun r => r.jid == j)

/-- Whether a JID currently holds an active container slot. -/
def isActive (st : GQ) (j : String) : Bool :=
  st.running.any (fun r => r.jid == j)

/-- The number of active container slots in use. -/
def activeCount (st : GQ) : Nat :=
  st.running.length

/-- Append a JID to the waiting FIFO, deduplicated. -/
def pushWaiting (st : GQ) (j : String) : GQ :=
  if j ∈ st.waiting then st else { st with waiting := st.waiting ++ [j] }

/-- Start the next piece of pending work for a JID: tasks first (FIFO),
then the pending message batch.  Callers guarantee the JID is not active
and a global slot is free. -/
def startWork (st : GQ) (j : String) : GQ :=
  match (st.pend j).pendingTasks with
  | t :: rest =>
    { setPend st j { st.pend j with pendingTasks := rest } with
        running := ⟨j, RunKind.task t, false⟩ :: st.running }
  | [] =>
    if (st.pend j).pendingMessages then
      { setPend st j { st.pend j with pendingMessages := false } with
          running := ⟨j, RunKind.messages, false⟩ :: st.running }
    else st

/-- `start(jid)`: proceeds iff the JID is not active and the global cap
has room; otherwise the JID joins the waiting FIFO (deduplicated). -/
def tryStart (st : GQ) (j : String) : GQ :=
  if isActive st j = true ∨ MAX_CONCURRENT ≤ activeCount st then pushWaiting st j
  else startWork st j

/-- Modelled from the spec: `enqueueMessageCheck(jid)` — refused after
shutdown; otherwise marks `pendingMessages` and attempts to start. -/
def enqueueMessageCheck (st : GQ) (j : String) : GQ :=
  if st.shutdownRequested then st
  else tryStart (setPend st j { st.pend j with pendingMessages := true }) j

/-- Modelled from the spec: `enqueueTask(jid, taskId, runFn)` — refused
after shutdown; appends to the pending-task FIFO and attempts to start.
The returned flag reports whether a `_close` directive was issued: that
happens iff the JID's container is already active and `idleWaiting` is
true at the moment of enqueue. -/
def enqueueTask (st : GQ) (j t : String) : GQ × Bool :=
  if st.shutdownRequested then (st, false)
  else
    let st' := setPend st j
      { st.pend j with pendingTasks := (st.pend j).pendingTasks ++ [t] }
    match findRun st j with
    | some r => (st', r.idleWaiting)
    | none => (tryStart st' j, false)

/-- Set the `idleWaiting` flag of the in-flight run of a JID. -/
def setIdle (st : GQ) (j : String) (b : Bool) : GQ :=
  { st with running :=
      st.running.map (fun r => if r.jid == j then { r with idleWaiting := b } else r) }

/-- Modelled from the spec: `notifyIdle(jid)` — sets `idleWaiting`; the
returned flag reports whether a `_close` directive was issued, which
happens iff a task is pending at the moment idleness is reported. -/
def notifyIdle (st : GQ) (j : String) : GQ × Bool :=
  match findRun st j with
  | none => (st, false)
  | some _ => (setIdle st j true, decide ((st.pend j).pendingTasks ≠ []))

/-- Modelled from the spec: `sendMessage(jid, text)` — returns false when
the active container is a task container (or none is active); otherwise
the text goes to the container's inbox and `idleWaiting` resets. -/
def sendMessage (st : GQ) (j : String) : GQ × Bool :=
  match findRun st j with
  | none => (st, false)
  | some r =>
    match r.kind with
    | RunKind.task _ => (st, false)
    | RunKind.messages => (setIdle st j false, true)

/-- Remove the in-flight run of a JID. -/
def removeRun (st : GQ) (j : String) : GQ :=
  { st with running := st.running.filter (fun r => !(r.jid == j)) }

/-- Admit the next waiting JID after a slot is released. -/
def popWaiting (st : GQ) : GQ :=
  match st.waiting with
  | [] => st
  | w :: rest => tryStart { st with waiting := rest } w

/-- Retry bookkeeping on job exit: a failed message run arms a retry
timer with the counter incremented, up to `MAX_RETRIES`; past that the
counter resets and the queue gives up until a new enqueue. -/
def retryBookkeeping (st : GQ) (j : String) (k : RunKind) (ok : Bool) : GQ :=
  match k with
  | RunKind.task _ => st
  | RunKind.messages =>
    if ok then
      setPend st j { st.pend j with retryCount := 0, retryScheduled := false }
    else if (st.pend j).retryCount < MAX_RETRIES then
      setPend st j { st.pend j with retryCount := (st.pend j).retryCount + 1,
                                    retryScheduled := true }
    else
      setPend st j { st.pend j with retryCount := 0, retryScheduled := false }

/-- Drain order after the slot holder of `j` stepped aside: pending
tasks first (FIFO), then the pending message batch, else release the
slot and admit the next waiting JID. -/
def drainAfter (st : GQ) (j : String) : GQ :=
  match (st.pend j).pendingTasks with
  | t :: rest =>
    { setPend st j { st.pend j with pendingTasks := rest } with
        running := ⟨j, RunKind.task t, false⟩ :: st.running }
  | [] =>
    if (st.pend j).pendingMessages then
      { setPend st j { st.pend j with pendingMessages := false } with
          running := ⟨j, RunKind.messages, false⟩ :: st.running }
    else popWaiting st

/-- Modelled from the spec: the running job of `j` completes with result
`ok` — the run leaves `running`, a failed message run arms the retry
timer, then the drain order picks the next work. -/
def completeRun (st : GQ) (j : String) (ok : Bool) : GQ :=
  match findRun st j with
  | none => st
  | some r => drainAfter (retryBookkeeping (removeRun st j) j r.kind ok) j

/-- An armed retry timer fires: re-attempt message processing for the
JID unless shutdown was requested. -/
def retryFire (st : GQ) (j : String) : GQ :=
  if (st.pend j).retryScheduled && !st.shutdownRequested then
    tryStart
      (setPend st j
        { st.pend j with retryScheduled := false, pendingMessages := true }) j
  else st

/-- The external and internal events that drive the queue. -/
inductive Event where
  | msgCheck (j : String) : Event
  | taskEnqueue (j t : String) : Event
  | idleReport (j : String) : Event
  | userSend (j : String) : Event
  | runExit (j : String) (ok : Bool) : Event
  | retryTimer (j : String) : Event
  | shutdownReq : Event

/-- Small-step semantics of the queue: one event at a time. -/
def step (st : GQ) (e : Event) : GQ :=
  match e with
  | Event.msgCheck j => enqueueMessageCheck st j
  | Event.taskEnqueue j t => (enqueueTask st j t).1
  | Event.idleReport j => (notifyIdle st j).1
  | Event.userSend j => (sendMessage st j).1
  | Event.runExit j ok => completeRun st j ok
  | Event.retryTimer j => retryFire st j
  | Event.shutdownReq => { st with shutdownRequested := true }

/-- States reachable from the initial queue by any event sequence. -/
inductive Reachable : GQ → Prop where
  | init : Reachable GQ.initial
  | next {st : GQ} (e : Event) : Reachable st → Reachable (step st e)

/-- Attempt times of the failure/retry sequence: starting at time 0 with
retry counter `rc`, each failure at counter `rc < maxRetries` schedules
the next attempt `base * 2 ^ rc` later. -/
def retryTimesAux (base : Nat) : Nat → Nat → Nat → List Nat
  | 0, _, t => [t]
  | n + 1, rc, t => t :: retryTimesAux base n (rc + 1) (t + base * 2 ^ rc)

/-- All attempt times when `processMessages` fails every time with no
intervening enqueue. -/
def retryAttemptTimes (base maxRetries : Nat) : List Nat :=
  retryTimesAux base maxRetries 0 0

/-- A queue state whose only container run is a message job with pending
tasks behind it (used to witness the drain order). -/
def drainExampleState : GQ :=
  step (step (step GQ.initial (Event.msgCheck "g@g.us"))
      (Event.taskEnqueue "g@g.us" "t1"))
    (Event.taskEnqueue "g@g.us" "t2")

/-- A queue state whose only container run is a scheduled-task run. -/
def taskExampleState : GQ :=
  step GQ.initial (Event.taskEnqueue "g@g.us" "t1")

/-- A queue state with both global slots taken. -/
def fullExampleState : GQ :=
  step (step GQ.initial (Event.msgCheck "a@g.us")) (Event.msgCheck "b@g.us")

/-- A queue state whose message run has exhausted its retries. -/
def retryEdgeState : GQ :=
  ⟨[⟨"g@g.us", RunKind.messages, false⟩], [],
    fun _ => ⟨false, [], MAX_RETRIES, false⟩, false⟩

/-- Modelled from the spec: validity of a group folder name as decided
by `isValidGroupFolder` / `resolveGroupFolderPath` (`src/group-folder.ts`
is not part of the sources; only its tests are).  A name resolves iff it
matches `^[A-Za-z0-9_-]+$` and is not the reserved word `global`;
`resolveGroupFolderPath` throws otherwise. -/
def isValidGroupFolder (s : String) : Bool :=
  s != "" && s != "global"
    && s.toList.all (fun c => c.isAlphanum || c == '-' || c == '_')

/-- The `ScheduledTask` row as consumed by `runTask` in
`src/task-scheduler.ts`. -/
structure ScheduledTaskM where
  id : String
  group_folder : String
  chat_jid : String
  prompt : String
  schedule_type : String
  schedule_value : String
  context_mode : String
  next_run : Option String
  status : String
deriving DecidableEq, Repr

/-- The fields of a `TaskRun` log entry written by `logTaskRun` that the
claims talk about. -/
structure TaskRunLog where
  task_id : String
  status : String
  result : Option String
  error : Option String
deriving DecidableEq, Repr

/-- The observable effects of one `runTask` invocation: the status
written through `updateTask`, the `TaskRun` entry written through
`logTaskRun`, whether an agent container ran, and the
`(next_run, result_summary)` pair passed to `updateTaskAfterRun`. -/
structure RunTaskEffects where
  statusSet : Option String
  runLog : Option TaskRunLog
  containerRan : Bool
  afterRun : Option (Option String × String)
deriving DecidableEq, Repr

/-- JavaScript truthiness of a nullable string: `null` and the empty
string are falsy. -/
def truthy : Option String → Bool
  | none => false
  | some s => s != ""

/-- The result summary computed at the end of `runTask`
(src/task-scheduler.ts): `error ? "Error: " + error : result ?
result.slice(0, 200) : "Completed"`. -/
def taskResultSummary (error result : Option String) : String :=
  if truthy error then "Error: " ++ error.getD ""
  else if truthy result then (result.getD "").take 200
  else "Completed"

/-- The control flow of `runTask` (src/task-scheduler.ts).  The agent
interaction inside the try block is abstracted to the values the mutable
`result` and `error` locals hold after it, passed as parameters, as is
the `next_run` value computed from the schedule kind; the folder check
models `resolveGroupFolderPath` throwing on an unresolvable name. -/
def runTaskModel (task : ScheduledTaskM) (groupFound : Bool)
    (result error : Option String) (nextRun : Option String) : RunTaskEffects :=
  if !isValidGroupFolder task.group_folder then
    ⟨some "paused",
      some ⟨task.id, "error", none,
        some ("Invalid group folder: " ++ task.group_folder)⟩,
      false, none⟩
  else if !groupFound then
    ⟨none,
      some ⟨task.id, "error", none,
        some ("Group not found: " ++ task.group_folder)⟩,
      false, none⟩
  else
    ⟨none,
      some ⟨task.id, if truthy error then "error" else "success", result, error⟩,
      true,
      some (nextRun, taskResultSummary error result)⟩

/-- A scheduled task whose `group_folder` does not resolve. -/
def invalidFolderTask : ScheduledTaskM :=
  ⟨"task-1", "../../etc", "g@g.us", "do something", "once",
    "2024-06-01T00:00:00.000Z", "isolated", some "2024-06-01T00:00:00.000Z",
    "active"⟩

/-- A scheduled task with a resolvable `group_folder`. -/
def validFolderTask : ScheduledTaskM :=
  ⟨"task-2", "main", "g@g.us", "do something", "once",
    "2024-06-01T00:00:00.000Z", "isolated", some "2024-06-01T00:00:00.000Z",
    "active"⟩

end NanoClaw

namespace NanoClaw

theorem keepMessage_eq_true (jid sinceTs assistantName : String) (m : Message) :
    keepMessage jid sinceTs assistantName m = true ↔
      m.chat_jid = jid ∧ sinceTs < m.timestamp ∧ m.is_bot_message = false ∧
        (assistantName ++ ":").isPrefixOf m.content = false ∧ m.content ≠ "" := by
  simp [keepMessage, Bool.and_eq_true, Bool.not_eq_true', and_assoc]

/-- C1: `getMessagesSince(j, c, a)` is a permutation of the stored rows
passing the row filter — so a row appears in the result iff it is a
stored row of chat `j` with timestamp strictly above the cursor, not
bot-flagged, not prefixed by `"<a>:"`, and non-empty — and the result is
ordered by timestamp ascending. -/
theorem getMessagesSince_returns_filtered_sorted
    (store : List Message) (jid sinceTs assistantName : String) :
    (getMessagesSince store jid sinceTs assistantName).Perm
        (store.filter (keepMessage jid sinceTs assistantName))
    ∧ (∀ m : Message, m ∈ getMessagesSince store jid sinceTs assistantName ↔
        m ∈ store ∧ m.chat_jid = jid ∧ sinceTs < m.timestamp ∧
          m.is_bot_message = false ∧
          (assistantName ++ ":").isPrefixOf m.content = false ∧ m.content ≠ "")
    ∧ (getMessagesSince store jid sinceTs assistantName).Sorted msgLe := by
  refine ⟨List.perm_insertionSort _ _, fun m => ?_, List.sorted_insertionSort _ _⟩
  rw [getMessagesSince, (List.perm_insertionSort msgLe _).mem_iff, List.mem_filter,
    keepMessage_eq_true]

theorem sameKey_refl (m : Message) : sameKey m m = true := by
  simp [sameKey]

/-- C4: `storeMessage` is idempotent — storing the same row twice equals
storing it once — and last-writer-wins: after storing `m` then a second
message `m₂` with the same `(chat_jid, id)` key, the rows matching that
key are exactly `[m₂]`. -/
theorem storeMessage_idempotent_last_writer_wins
    (s : List Message) (m m₂ : Message) (hk : sameKey m₂ m = true) :
    storeMessage m (storeMessage m s) = storeMessage m s
    ∧ (storeMessage m₂ (storeMessage m s)).filter (fun x => sameKey x m) = [m₂] := by
  have hkey : m₂.chat_jid = m.chat_jid ∧ m₂.id = m.id := by
    simpa [sameKey, Bool.and_eq_true] using hk
  constructor
  · simp [storeMessage, List.filter_append, sameKey_refl, List.filter_filter]
  · have hm2 : sameKey m m₂ = true := by
      simp [sameKey, hkey.1, hkey.2]
    have hnil :
        List.filter (fun x => sameKey x m)
          (List.filter (fun x => !(sameKey x m₂))
            (List.filter (fun x => !(sameKey x m)) s)) = [] := by
      rw [List.filter_eq_nil_iff]
      intro a ha hka
      rw [List.mem_filter] at ha
      have hne : sameKey a m₂ = false := by
        simpa using ha.2
      have hka' : a.chat_jid = m.chat_jid ∧ a.id = m.id := by
        simpa [sameKey, Bool.and_eq_true] using hka
      have hyes : sameKey a m₂ = true := by
        simp [sameKey, hka'.1, hka'.2, hkey.1, hkey.2]
      simp [hyes] at hne
    simp [storeMessage, List.filter_append, hm2, hk, hnil]
    tauto

/-- Witness for C4 at a concrete store: a second write with the same key
and new content leaves exactly one row, carrying the later content. -/
theorem storeMessage_idempotent_last_writer_wins_witness :
    sameKey
        ⟨"msg-dup", "group@g.us", "123", "Alice", "updated",
          "2024-01-01T00:00:01.000Z", false, false⟩
        ⟨"msg-dup", "group@g.us", "123", "Alice", "original",
          "2024-01-01T00:00:01.000Z", false, false⟩ = true
    ∧ (storeMessage
          ⟨"msg-dup", "group@g.us", "123", "Alice", "original",
            "2024-01-01T00:00:01.000Z", false, false⟩
          (storeMessage
            ⟨"msg-dup", "group@g.us", "123", "Alice", "original",
              "2024-01-01T00:00:01.000Z", false, false⟩ [])
        = storeMessage
            ⟨"msg-dup", "group@g.us", "123", "Alice", "original",
              "2024-01-01T00:00:01.000Z", false, false⟩ []
      ∧ (storeMessage
            ⟨"msg-dup", "group@g.us", "123", "Alice", "updated",
              "2024-01-01T00:00:01.000Z", false, false⟩
            (storeMessage
              ⟨"msg-dup", "group@g.us", "123", "Alice", "original",
                "2024-01-01T00:00:01.000Z", false, false⟩ [])).filter
          (fun x => sameKey x
            ⟨"msg-dup", "group@g.us", "123", "Alice", "original",
              "2024-01-01T00:00:01.000Z", false, false⟩)
        = [⟨"msg-dup", "group@g.us", "123", "Alice", "updated",
            "2024-01-01T00:00:01.000Z", false, false⟩]) :=
  ⟨by decide,
    storeMessage_idempotent_last_writer_wins _ _ _ (by decide)⟩

theorem running_setPend (st : GQ) (j : String) (p : PendState) :
    (setPend st j p).running = st.running := rfl

theorem waiting_setPend (st : GQ) (j : String) (p : PendState) :
    (setPend st j p).waiting = st.waiting := rfl

theorem pend_setPend_same (st : GQ) (j : String) (p : PendState) :
    (setPend st j p).pend j = p := by
  simp [setPend]

theorem running_pushWaiting (st : GQ) (j : String) :
    (pushWaiting st j).running = st.running := by
  unfold pushWaiting
  split <;> rfl

theorem pend_removeRun (st : GQ) (j : String) :
    (removeRun st j).pend = st.pend := rfl

theorem waiting_removeRun (st : GQ) (j : String) :
    (removeRun st j).waiting = st.waiting := rfl

theorem running_retryBookkeeping (st : GQ) (j : String) (k : RunKind) (ok : Bool) :
    (retryBookkeeping st j k ok).running = st.running := by
  cases k with
  | messages =>
    simp only [retryBookkeeping]
    split
    · rfl
    · split <;> rfl
  | task tid => rfl

theorem waiting_retryBookkeeping (st : GQ) (j : String) (k : RunKind) (ok : Bool) :
    (retryBookkeeping st j k ok).waiting = st.waiting := by
  cases k with
  | messages =>
    simp only [retryBookkeeping]
    split
    · rfl
    · split <;> rfl
  | task tid => rfl

/-- The two queue invariants: the in-flight runs carry pairwise distinct
JIDs, and the number of in-flight runs respects the global cap. -/
def Inv (st : GQ) : Prop :=
  st.running.Pairwise (fun a b => a.jid ≠ b.jid) ∧ activeCount st ≤ MAX_CONCURRENT

theorem inv_of_running_eq (st' st : GQ) (hr : st'.running = st.running) (h : Inv st) :
    Inv st' := by
  unfold Inv activeCount at h ⊢
  rw [hr]
  exact h

theorem inv_setPend (st : GQ) (j : String) (p : PendState) (h : Inv st) :
    Inv (setPend st j p) :=
  inv_of_running_eq _ _ rfl h

theorem bool_eq_false {b : Bool} (h : b ≠ true) : b = false := by
  cases b
  · rfl
  · exact absurd rfl h

theorem not_isActive_iff (st : GQ) (j : String) :
    isActive st j = false ↔ ∀ r ∈ st.running, r.jid ≠ j := by
  simp [isActive, List.any_eq_false]

theorem findRun_mem {st : GQ} {j : String} {r : Run} (h : findRun st j = some r) :
    r ∈ st.running ∧ r.jid = j := by
  unfold findRun at h
  refine ⟨List.mem_of_find?_eq_some h, ?_⟩
  simpa using List.find?_some h

theorem inv_startWork (st : GQ) (j : String) (h : Inv st)
    (hact : isActive st j = false) (hlt : activeCount st < MAX_CONCURRENT) :
    Inv (startWork st j) := by
  have hd := h.1
  have hnot : ∀ r ∈ st.running, j ≠ r.jid :=
    fun r hr => ((not_isActive_iff st j).mp hact r hr).symm
  unfold startWork
  split
  · exact ⟨List.pairwise_cons.mpr ⟨fun b hb => hnot b hb, hd⟩,
      Nat.succ_le_of_lt hlt⟩
  · split
    · exact ⟨List.pairwise_cons.mpr ⟨fun b hb => hnot b hb, hd⟩,
        Nat.succ_le_of_lt hlt⟩
    · exact h

theorem inv_tryStart (st : GQ) (j : String) (h : Inv st) : Inv (tryStart st j) := by
  unfold tryStart
  split
  · exact inv_of_running_eq _ _ (running_pushWaiting st j) h
  · rename_i hcond
    push_neg at hcond
    exact inv_startWork st j h (bool_eq_false hcond.1) hcond.2

theorem inv_popWaiting (st : GQ) (h : Inv st) : Inv (popWaiting st) := by
  unfold popWaiting
  split
  · exact h
  · exact inv_tryStart _ _ h

theorem jid_idleUpd (j : String) (b : Bool) (r : Run) :
    (if r.jid == j then { r with idleWaiting := b } else r).jid = r.jid := by
  split <;> rfl

theorem inv_setIdle (st : GQ) (j : String) (b : Bool) (h : Inv st) :
    Inv (setIdle st j b) := by
  obtain ⟨hd, hc⟩ := h
  constructor
  · show (st.running.map _).Pairwise _
    rw [List.pairwise_map]
    refine hd.imp ?_
    intro x y hxy
    rw [jid_idleUpd, jid_idleUpd]
    exact hxy
  · show (st.running.map _).length ≤ MAX_CONCURRENT
    rw [List.length_map]
    exact hc

theorem inv_drainAfter (st : GQ) (j : String)
    (hd : st.running.Pairwise (fun a b => a.jid ≠ b.jid))
    (hnoj : ∀ x ∈ st.running, x.jid ≠ j)
    (hlt : st.running.length < MAX_CONCURRENT) :
    Inv (drainAfter st j) := by
  unfold drainAfter
  split
  · exact ⟨List.pairwise_cons.mpr ⟨fun b hb => (hnoj b hb).symm, hd⟩,
      Nat.succ_le_of_lt hlt⟩
  · split
    · exact ⟨List.pairwise_cons.mpr ⟨fun b hb => (hnoj b hb).symm, hd⟩,
        Nat.succ_le_of_lt hlt⟩
    · exact inv_popWaiting _ ⟨hd, Nat.le_of_lt hlt⟩

theorem inv_completeRun (st : GQ) (j : String) (ok : Bool) (h : Inv st) :
    Inv (completeRun st j ok) := by
  unfold completeRun
  cases hfr : findRun st j with
  | none => exact h
  | some r =>
    have hm := findRun_mem hfr
    have hsub : (removeRun st j).running.Sublist st.running := List.filter_sublist _
    have hd₂ : (removeRun st j).running.Pairwise (fun a b => a.jid ≠ b.jid) :=
      List.Pairwise.sublist hsub h.1
    have hlen : (removeRun st j).running.length < st.running.length := by
      refine List.length_filter_lt_length_iff_exists.mpr ⟨r, hm.1, ?_⟩
      simp [hm.2]
    have hnoj : ∀ x ∈ (removeRun st j).running, x.jid ≠ j := by
      intro x hx
      simpa using (List.mem_filter.mp hx).2
    refine inv_drainAfter _ j ?_ ?_ ?_
    · rw [running_retryBookkeeping]
      exact hd₂
    · rw [running_retryBookkeeping]
      exact hnoj
    · rw [running_retryBookkeeping]
      exact Nat.lt_of_lt_of_le hlen h.2

theorem inv_step (st : GQ) (e : Event) (h : Inv st) : Inv (step st e) := by
  cases e with
  | msgCheck j =>
    show Inv (enqueueMessageCheck st j)
    unfold enqueueMessageCheck
    split
    · exact h
    · exact inv_tryStart _ _ (inv_setPend _ _ _ h)
  | taskEnqueue j t =>
    show Inv (enqueueTask st j t).1
    unfold enqueueTask
    split
    · exact h
    · cases hfr : findRun st j with
      | none => exact inv_tryStart _ _ (inv_setPend _ _ _ h)
      | some r => exact inv_setPend _ _ _ h
  | idleReport j =>
    show Inv (notifyIdle st j).1
    unfold notifyIdle
    cases hfr : findRun st j with
    | none => exact h
    | some r => exact inv_setIdle _ _ _ h
  | userSend j =>
    show Inv (sendMessage st j).1
    unfold sendMessage
    cases hfr : findRun st j with
    | none => exact h
    | some r =>
      cases r with
      | mk rj rk ri =>
        cases rk with
        | messages => exact inv_setIdle _ _ _ h
        | task tid => exact h
  | runExit j ok => exact inv_completeRun _ _ _ h
  | retryTimer j =>
    show Inv (retryFire st j)
    unfold retryFire
    split
    · exact inv_tryStart _ _ (inv_setPend _ _ _ h)
    · exact h
  | shutdownReq => exact inv_of_running_eq _ _ rfl h

theorem inv_reachable (st : GQ) (h : Reachable st) : Inv st := by
  induction h with
  | init => exact ⟨List.Pairwise.nil, by simp [activeCount, GQ.initial]⟩
  | next e _ ih => exact inv_step _ e ih

/-- C2: in every reachable queue state the in-flight container runs
carry pairwise distinct JIDs — for any JID there is never more than one
message-processing or task run in flight at once. -/
theorem groupQueue_per_jid_mutual_exclusion (st : GQ) (h : Reachable st) :
    st.running.Pairwise (fun a b => a.jid ≠ b.jid) :=
  (inv_reachable st h).1

/-- Witness for C2 at a concrete reachable state with two distinct
active JIDs. -/
theorem groupQueue_per_jid_mutual_exclusion_witness :
    fullExampleState.running.Pairwise (fun a b => a.jid ≠ b.jid) :=
  groupQueue_per_jid_mutual_exclusion fullExampleState
    (Reachable.next _ (Reachable.next _ Reachable.init))

/-- C3: in every reachable queue state `activeCount ≤ MAX_CONCURRENT`;
moreover a blocked `start(jid)` (JID already active, or no free global
slot) starts nothing and only appends the JID to the waiting FIFO,
deduplicated. -/
theorem groupQueue_global_cap (st : GQ) (j : String) (h : Reachable st) :
    activeCount st ≤ MAX_CONCURRENT
    ∧ (isActive st j = true ∨ MAX_CONCURRENT ≤ activeCount st →
        (tryStart st j).running = st.running ∧
          (tryStart st j).waiting =
            (if j ∈ st.waiting then st.waiting else st.waiting ++ [j])) := by
  refine ⟨(inv_reachable st h).2, fun hb => ?_⟩
  unfold tryStart
  rw [if_pos hb]
  refine ⟨running_pushWaiting st j, ?_⟩
  unfold pushWaiting
  split <;> rename_i hmem <;> simp [hmem]

/-- Witness for C3 at a concrete reachable state with both slots taken:
the cap holds and a third JID is pushed to the waiting FIFO. -/
theorem groupQueue_global_cap_witness :
    activeCount fullExampleState ≤ MAX_CONCURRENT
    ∧ (isActive fullExampleState "c@g.us" = true ∨
          MAX_CONCURRENT ≤ activeCount fullExampleState →
        (tryStart fullExampleState "c@g.us").running = fullExampleState.running ∧
          (tryStart fullExampleState "c@g.us").waiting =
            (if "c@g.us" ∈ fullExampleState.waiting then fullExampleState.waiting
             else fullExampleState.waiting ++ ["c@g.us"])) :=
  groupQueue_global_cap fullExampleState "c@g.us"
    (Reachable.next _ (Reachable.next _ Reachable.init))

theorem pend_retryBookkeeping (st : GQ) (j : String) (k : RunKind) (ok : Bool) :
    ((retryBookkeeping st j k ok).pend j).pendingTasks = (st.pend j).pendingTasks ∧
      ((retryBookkeeping st j k ok).pend j).pendingMessages
        = (st.pend j).pendingMessages := by
  cases k with
  | task tid => exact ⟨rfl, rfl⟩
  | messages =>
    simp only [retryBookkeeping]
    split
    · rw [pend_setPend_same]
      exact ⟨rfl, rfl⟩
    · split
      · rw [pend_setPend_same]
        exact ⟨rfl, rfl⟩
      · rw [pend_setPend_same]
        exact ⟨rfl, rfl⟩

/-- C5: drain order on completion for a JID — if tasks are pending, the
head of the task FIFO (the earliest enqueued) starts next and the rest
stay queued; only when the task FIFO is empty does the pending message
batch start.  Message batches for a JID coalesce into one pending flag,
so their arrival order is trivially preserved. -/
theorem drain_tasks_first_in_order (st : GQ) (j : String) (r : Run) (ok : Bool)
    (hfr : findRun st j = some r) :
    (∀ t rest, (st.pend j).pendingTasks = t :: rest →
      findRun (completeRun st j ok) j = some ⟨j, RunKind.task t, false⟩ ∧
        ((completeRun st j ok).pend j).pendingTasks = rest)
    ∧ ((st.pend j).pendingTasks = [] → (st.pend j).pendingMessages = true →
      findRun (completeRun st j ok) j = some ⟨j, RunKind.messages, false⟩ ∧
        ((completeRun st j ok).pend j).pendingMessages = false) := by
  have hcr : completeRun st j ok
      = drainAfter (retryBookkeeping (removeRun st j) j r.kind ok) j := by
    unfold completeRun
    rw [hfr]
  obtain ⟨hT, hM⟩ := pend_retryBookkeeping (removeRun st j) j r.kind ok
  constructor
  · intro t rest ht
    have ht' : ((retryBookkeeping (removeRun st j) j r.kind ok).pend j).pendingTasks
        = t :: rest := by
      rw [hT]
      exact ht
    rw [hcr]
    unfold drainAfter
    rw [ht']
    constructor
    · unfold findRun
      simp
    · rw [pend_setPend_same]
  · intro hnil hpm
    have hnil' : ((retryBookkeeping (removeRun st j) j r.kind ok).pend j).pendingTasks
        = ([] : List String) := by
      rw [hT]
      exact hnil
    have hpm' : ((retryBookkeeping (removeRun st j) j r.kind ok).pend j).pendingMessages
        = true := by
      rw [hM]
      exact hpm
    rw [hcr]
    unfold drainAfter
    rw [hnil', if_pos hpm']
    constructor
    · unfold findRun
      simp
    · rw [pend_setPend_same]

/-- Witness for C5 at a concrete queue: a message run for the JID is
active with tasks `t1, t2` pending; on completion the container for
`t1` starts and `t2` stays queued. -/
theorem drain_tasks_first_in_order_witness :
    findRun drainExampleState "g@g.us" = some ⟨"g@g.us", RunKind.messages, false⟩
    ∧ (findRun (completeRun drainExampleState "g@g.us" true) "g@g.us"
          = some ⟨"g@g.us", RunKind.task "t1", false⟩
       ∧ ((completeRun drainExampleState "g@g.us" true).pend "g@g.us").pendingTasks
          = ["t2"]) :=
  ⟨by decide,
    (drain_tasks_first_in_order drainExampleState "g@g.us"
        ⟨"g@g.us", RunKind.messages, false⟩ true (by decide)).1
      "t1" ["t2"] (by decide)⟩

/-- C6: a `_close` directive is issued by `enqueueTask` iff (shutdown
aside) the JID's container is active with `idleWaiting` true at the
moment of enqueue, and by `notifyIdle` iff a run is active and a task is
pending when idleness is reported — so a task never preempts an active
container that is not idle. -/
theorem close_sentinel_only_when_idle (st : GQ) (j t : String) :
    ((enqueueTask st j t).2 = true ↔
      st.shutdownRequested = false ∧ ∃ r, findRun st j = some r ∧ r.idleWaiting = true)
    ∧ ((notifyIdle st j).2 = true ↔
      (∃ r, findRun st j = some r) ∧ (st.pend j).pendingTasks ≠ []) := by
  constructor
  · unfold enqueueTask
    split
    · rename_i hs
      simp [hs]
    · rename_i hs
      cases hfr : findRun st j with
      | none => simp [bool_eq_false hs]
      | some r => simp [bool_eq_false hs]
  · unfold notifyIdle
    cases hfr : findRun st j with
    | none => simp
    | some r => simp

/-- C7: `sendMessage(jid, text)` returns false when the active container
for the JID is a task container (the state is untouched, so no inbox
write happens); when the active container is a message container it
returns true and the run's `idleWaiting` flag is reset to false. -/
theorem sendMessage_task_container_false (st : GQ) (j : String) (r : Run)
    (hfr : findRun st j = some r) :
    (∀ tid, r.kind = RunKind.task tid → sendMessage st j = (st, false))
    ∧ (r.kind = RunKind.messages →
        (sendMessage st j).2 = true ∧
          ∀ x ∈ (sendMessage st j).1.running, x.jid = j → x.idleWaiting = false) := by
  constructor
  · intro tid hk
    unfold sendMessage
    simp only [hfr, hk]
  · intro hk
    unfold sendMessage
    simp only [hfr, hk]
    refine ⟨trivial, ?_⟩
    intro x hx hxj
    simp only [setIdle, List.mem_map] at hx
    obtain ⟨y, hy, hyx⟩ := hx
    by_cases hyj : y.jid = j
    · rw [← hyx]
      simp [hyj]
    · rw [← hyx] at hxj
      rw [if_neg (by simp [hyj])] at hxj
      exact absurd hxj hyj

/-- Witness for C7 at a concrete queue whose only active container is a
task container: user input is rejected. -/
theorem sendMessage_task_container_false_witness :
    findRun taskExampleState "g@g.us" = some ⟨"g@g.us", RunKind.task "t1", false⟩
    ∧ sendMessage taskExampleState "g@g.us" = (taskExampleState, false) :=
  ⟨by decide,
    (sendMessage_task_container_false taskExampleState "g@g.us"
        ⟨"g@g.us", RunKind.task "t1", false⟩ (by decide)).1 "t1" rfl⟩

/-- C8: with `BASE_RETRY_MS = 5000` and `MAX_RETRIES = 5`, the attempts
of an always-failing message job sit at 0, 5000, 15000, 35000, 75000 and
155000 ms (each retry delayed `BASE_RETRY_MS * 2 ^ retryCount`), i.e.
`MAX_RETRIES + 1` attempts in total; and when the run at the exhausted
counter fails, the retry timer is disarmed, the counter resets, and a
retry-timer event is a no-op until a new enqueue arrives. -/
theorem retry_backoff_schedule :
    retryAttemptTimes BASE_RETRY_MS MAX_RETRIES = [0, 5000, 15000, 35000, 75000, 155000]
    ∧ (retryAttemptTimes BASE_RETRY_MS MAX_RETRIES).length = MAX_RETRIES + 1
    ∧ (∀ st : GQ, ∀ j : String, ∀ r : Run,
        findRun st j = some r → r.kind = RunKind.messages →
        (st.pend j).retryCount = MAX_RETRIES →
        (st.pend j).pendingTasks = [] → (st.pend j).pendingMessages = false →
        st.waiting = [] →
        ((completeRun st j false).pend j).retryScheduled = false ∧
          ((completeRun st j false).pend j).retryCount = 0 ∧
          retryFire (completeRun st j false) j = completeRun st j false) := by
  refine ⟨by decide, by decide, ?_⟩
  intro st j r hfr hk hrc hT hM hW
  have hrc' : ((removeRun st j).pend j).retryCount = MAX_RETRIES := hrc
  have hfinal : completeRun st j false
      = setPend (removeRun st j) j
          ⟨(st.pend j).pendingMessages, [], 0, false⟩ := by
    unfold completeRun
    simp only [hfr]
    rw [hk]
    simp only [retryBookkeeping]
    rw [if_neg (by simp)]
    rw [if_neg (by simp [hrc'])]
    unfold drainAfter
    rw [pend_setPend_same]
    dsimp only
    rw [show ((removeRun st j).pend j).pendingTasks = ([] : List String) from hT]
    rw [if_neg (by simp [show ((removeRun st j).pend j).pendingMessages = false from hM])]
    unfold popWaiting
    rw [waiting_setPend, waiting_removeRun, hW]
    rfl
  rw [hfinal]
  refine ⟨?_, ?_, ?_⟩
  · rw [pend_setPend_same]
  · rw [pend_setPend_same]
  · unfold retryFire
    rw [if_neg (by simp [pend_setPend_same])]

/-- Witness for C8: a concrete queue whose message run has retry counter
at `MAX_RETRIES`; its failure disarms the retry timer. -/
theorem retry_backoff_schedule_witness :
    findRun retryEdgeState "g@g.us" = some ⟨"g@g.us", RunKind.messages, false⟩
    ∧ (((completeRun retryEdgeState "g@g.us" false).pend "g@g.us").retryScheduled = false
       ∧ ((completeRun retryEdgeState "g@g.us" false).pend "g@g.us").retryCount = 0
       ∧ retryFire (completeRun retryEdgeState "g@g.us" false) "g@g.us"
           = completeRun retryEdgeState "g@g.us" false) :=
  ⟨by decide,
    retry_backoff_schedule.2.2 retryEdgeState "g@g.us"
      ⟨"g@g.us", RunKind.messages, false⟩ (by decide) rfl (by decide) (by decide)
      (by decide) rfl⟩

/-- C9: when a due task's `group_folder` is not resolvable, `runTask`
sets the task's status to `paused`, logs a `TaskRun` with status
`error`, runs no agent container, and does not reach
`updateTaskAfterRun`. -/
theorem invalid_group_folder_pauses_task (task : ScheduledTaskM) (groupFound : Bool)
    (result error nextRun : Option String)
    (hbad : isValidGroupFolder task.group_folder = false) :
    (runTaskModel task groupFound result error nextRun).statusSet = some "paused"
    ∧ (∃ log, (runTaskModel task groupFound result error nextRun).runLog = some log
        ∧ log.status = "error")
    ∧ (runTaskModel task groupFound result error nextRun).containerRan = false
    ∧ (runTaskModel task groupFound result error nextRun).afterRun = none := by
  unfold runTaskModel
  rw [if_pos (by simp [hbad])]
  exact ⟨rfl, ⟨_, rfl, rfl⟩, rfl, rfl⟩

/-- Witness for C9 at the concrete unresolvable folder `../../etc`. -/
theorem invalid_group_folder_pauses_task_witness :
    isValidGroupFolder "../../etc" = false
    ∧ ((runTaskModel invalidFolderTask true none none none).statusSet = some "paused"
       ∧ (∃ log, (runTaskModel invalidFolderTask true none none none).runLog = some log
           ∧ log.status = "error")
       ∧ (runTaskModel invalidFolderTask true none none none).containerRan = false
       ∧ (runTaskModel invalidFolderTask true none none none).afterRun = none) :=
  ⟨by decide,
    invalid_group_folder_pauses_task invalidFolderTask true none none none (by decide)⟩

/-- C10: a task run that executes (resolvable folder, group found) ends
with `updateTaskAfterRun` receiving the computed `next_run` and a result
summary that is `"Error: "` followed by the error text when the run
failed, else the first 200 characters of the result text when a result
exists, else `"Completed"`. -/
theorem updateTaskAfterRun_summary (task : ScheduledTaskM)
    (result error nextRun : Option String)
    (hok : isValidGroupFolder task.group_folder = true) :
    (runTaskModel task true result error nextRun).afterRun
        = some (nextRun, taskResultSummary error result)
    ∧ (∀ e, error = some e → e ≠ "" → taskResultSummary error result = "Error: " ++ e)
    ∧ (∀ r, error = none → result = some r → r ≠ "" →
        taskResultSummary error result = r.take 200)
    ∧ (error = none → result = none → taskResultSummary error result = "Completed") := by
  refine ⟨?_, ?_, ?_, ?_⟩
  · unfold runTaskModel
    rw [if_neg (by simp [hok]), if_neg (by simp)]
  · intro e he hne
    subst he
    simp [taskResultSummary, truthy, hne]
  · intro r he hr hne
    subst he
    subst hr
    simp [taskResultSummary, truthy, hne]
  · intro he hr
    subst he
    subst hr
    simp [taskResultSummary, truthy]

/-- Witness for C10 at a concrete successful run with a result text. -/
theorem updateTaskAfterRun_summary_witness :
    isValidGroupFolder "main" = true
    ∧ (runTaskModel validFolderTask true (some "All done") none none).afterRun
        = some (none, taskResultSummary none (some "All done")) :=
  ⟨by decide,
    (updateTaskAfterRun_summary validFolderTask (some "All done") none none
        (by decide)).1⟩

end NanoClaw
